import Mathlib

/-!
Shallow embedding of `src/models/model_composite.py` (class `Model_Composite`).

The class is a training-harness mixin over an external tensor framework.  The
embedding keeps the harness's own state and control flow exactly, and models
the external collaborators (model forward pass + argmax, loss function, data
loader) as data carried by each batch:

* a sample's argmax prediction and its target label are natural numbers
  (class indices);
* the loss function's return values on a batch are rational numbers: the
  result of `criterion(y_pred, target, reduction='sum')` is `lossSum`
  (`none` when that call raises, which triggers the `except` fallback in
  `model_test`), the result of the plain `criterion(y_pred, target)` call is
  `loss`;
* a Python call that raises an uncaught exception (ZeroDivisionError from
  `100*correct/processed` with `processed == 0`, StopIteration from
  `next(iter(...))` on an empty loader, IndexError from
  `self.train_accuracy[-1]` on an empty history) is modelled as `none`:
  the call does not complete, so the mutated state is not observable as the
  result of a completed call.

Numbers are `ℚ` (Python floats are used only for exact small arithmetic
here; no claim depends on float rounding).
-/

/-- One batch as the harness sees it after the external collaborators ran:
`data` are opaque sample identifiers (the rows of the input tensor),
`target` the target labels, `pred` the model's per-sample argmax predictions
(`y_pred.argmax(dim=1)`), `lossSum` the value of the loss call with
`reduction='sum'` (`none` if that call raises) and `loss` the value of the
plain loss call. -/
structure Batch where
  data : List Nat
  target : List Nat
  pred : List Nat
  lossSum : Option ℚ
  loss : ℚ
deriving Repr, DecidableEq

/-- `len(data)` for a batch. -/
def Batch.size (b : Batch) : Nat := b.data.length

/-- `pred.eq(target.view_as(pred)).sum().item()`: the number of positions
where the prediction equals the target. -/
def Batch.correct (b : Batch) : Nat :=
  (b.pred.zip b.target).countP (fun pr => pr.1 == pr.2)

/-- Well-formedness guaranteed by the tensor framework: `pred` comes from
the model applied to `data` (same leading dimension) and
`target.view_as(pred)` succeeds, so the three per-sample lists have the
same length. -/
def Batch.wf (b : Batch) : Prop :=
  b.pred.length = b.data.length ∧ b.target.length = b.data.length

instance (b : Batch) : Decidable b.wf := by
  unfold Batch.wf; infer_instance

/-- The per-batch test loss actually accumulated by `model_test`:
`try: criterion(y_pred, target, reduction='sum').item()
 except: criterion(y_pred, target).item()`. -/
def Batch.testLoss (b : Batch) : ℚ :=
  match b.lossSum with
  | some v => v
  | none => b.loss

/-- The harness state: the four history sequences plus the normalization
configuration, exactly the fields set in `Model_Composite.__init__`. -/
structure Model_Composite where
  train_accuracy : List ℚ
  test_accuracy : List ℚ
  train_losses : List ℚ
  test_losses : List ℚ
  norm_type : String
  n_groups : Nat
deriving Repr, DecidableEq

/-- `Model_Composite.__init__`: empty histories, `norm_type = 'bn'`,
`n_groups = 2`. -/
def Model_Composite.init : Model_Composite :=
  ⟨[], [], [], [], "bn", 2⟩

/-- The training loop of `model_train`: per batch accumulate
`train_loss += loss.item()`, `correct += ...`, `processed += len(data)`.
Each iteration ends with `pbar.set_description` formatting
`100*correct/processed`, which raises ZeroDivisionError when
`processed == 0` (all batches so far empty); that abort is `none`. -/
def trainLoop : List Batch → ℚ → Nat → Nat → Option (ℚ × Nat × Nat)
  | [], train_loss, correct, processed => some (train_loss, correct, processed)
  | b :: rest, train_loss, correct, processed =>
    let train_loss := train_loss + b.loss
    let correct := correct + b.correct
    let processed := processed + b.size
    if processed = 0 then none
    else trainLoop rest train_loss correct processed

/-- `Model_Composite.model_train`: run the training loop over the loader,
then append `100*correct/processed` to `train_accuracy` and the summed
`train_loss` to `train_losses`.  The final `100*correct/processed` (also
formatted by the progress bar) raises ZeroDivisionError when
`processed == 0`, i.e. on an empty loader; the backward/optimizer/scheduler
steps mutate only external collaborators, not harness state. -/
def model_train (m : Model_Composite) (train_loader : List Batch) :
    Option Model_Composite :=
  match trainLoop train_loader 0 0 0 with
  | none => none
  | some (train_loss, correct, processed) =>
    if processed = 0 then none
    else some { m with
      train_accuracy := m.train_accuracy ++ [100 * (correct : ℚ) / (processed : ℚ)],
      train_losses := m.train_losses ++ [train_loss] }

/-- The evaluation loop of `model_test` (under `torch.no_grad()`): per batch
accumulate the try/except test loss, the correct count, and
`processed += len(data)` (`processed` is never read afterwards). -/
def testLoop : List Batch → ℚ → Nat → Nat → ℚ × Nat × Nat
  | [], test_loss, correct, processed => (test_loss, correct, processed)
  | b :: rest, test_loss, correct, processed =>
    testLoop rest (test_loss + b.testLoss) (correct + b.correct) (processed + b.size)

/-- The values interpolated into the `print` statement at the end of
`model_test`: the normalized average loss, the correct count, the dataset
size, the accuracy, and `abs(test_accuracy[-1] - train_accuracy[-1])`
(the Python code additionally rounds the difference to 4 decimals before
`abs`; no claim depends on that rounding). -/
structure TestReport where
  avg_loss : ℚ
  correct : Nat
  dataset_size : Nat
  accuracy : ℚ
  accuracy_diff : ℚ
deriving Repr, DecidableEq

/-- `Model_Composite.model_test`: run the eval loop, append the RAW summed
`test_loss` to `test_losses`, then divide `test_loss` by
`len(test_loader.dataset) / test_loader.batch_size` (ZeroDivisionError when
`batch_size == 0` or when the quotient is `0`, i.e. `dataset_size == 0`),
append `100. * correct / len(test_loader.dataset)` to `test_accuracy`
(ZeroDivisionError when `dataset_size == 0`), and build the printed report,
which indexes `self.train_accuracy[-1]` (IndexError when `train_accuracy`
is empty).  A raise anywhere is `none`: the call did not complete. -/
def model_test (m : Model_Composite) (test_loader : List Batch)
    (dataset_size : Nat) (batch_size : ℚ) :
    Option (Model_Composite × TestReport) :=
  match testLoop test_loader 0 0 0 with
  | (test_loss, correct, _) =>
    let m1 := { m with test_losses := m.test_losses ++ [test_loss] }
    if batch_size = 0 then none
    else if (dataset_size : ℚ) / batch_size = 0 then none
    else
      let avg_loss := test_loss / ((dataset_size : ℚ) / batch_size)
      if dataset_size = 0 then none
      else
        let accuracy := 100 * (correct : ℚ) / (dataset_size : ℚ)
        let m2 := { m1 with test_accuracy := m1.test_accuracy ++ [accuracy] }
        match m.train_accuracy.getLast? with
        | none => none
        | some last_train_acc =>
          some (m2, ⟨avg_loss, correct, dataset_size, accuracy,
                     |accuracy - last_train_acc|⟩)

/-- The normalization layers `get_norm` can construct (`nn.BatchNorm2d`,
`nn.GroupNorm`). -/
inductive NormLayer where
  | BatchNorm2d (num_features : Nat)
  | GroupNorm (num_groups : Nat) (num_channels : Nat)
deriving Repr, DecidableEq

/-- `Model_Composite.get_norm`: dispatch on `self.norm_type`; a tag other
than `'bn'`, `'ln'`, `'gn'` falls off the `if`/`elif` chain and returns
`None`. -/
def get_norm (m : Model_Composite) (n_channels : Nat) : Option NormLayer :=
  if m.norm_type = "bn" then some (NormLayer.BatchNorm2d n_channels)
  else if m.norm_type = "ln" then some (NormLayer.GroupNorm 1 n_channels)
  else if m.norm_type = "gn" then some (NormLayer.GroupNorm m.n_groups n_channels)
  else none

/-- `compare = pred.eq(target)` in `get_incorrect_pred`: element-wise
equality of prediction and target. -/
def Batch.compare (b : Batch) : List Bool :=
  (b.pred.zip b.target).map (fun pr => pr.1 == pr.2)

/-- `incorrect_indx = torch.where((compare == False), 1, 0).nonzero()`:
the ascending list of indices at which `compare` is `false`. -/
def Batch.incorrect_indx (b : Batch) : List Nat :=
  (List.range b.compare.length).filter (fun i => b.compare.getD i true == false)

/-- `Model_Composite.get_incorrect_pred`: draw ONE batch with
`next(iter(test_loader))` (StopIteration on an empty loader is `none`),
compute predictions, take the first `top_n` misclassified indices
(`incorrect_indx[:top_n]`) and return the inputs, targets and predictions
at those indices.  (The Python signature defaults `top_n` to 10; the
`.squeeze()` only changes tensor rank, not which samples are returned.) -/
def get_incorrect_pred (test_loader : List Batch) (top_n : Nat) :
    Option (List Nat × List Nat × List Nat) :=
  match test_loader with
  | [] => none
  | b :: _ =>
    let top_n_pred := b.incorrect_indx.take top_n
    some (top_n_pred.map (fun i => b.data.getD i 0),
          top_n_pred.map (fun i => b.target.getD i 0),
          top_n_pred.map (fun i => b.pred.getD i 0))

/-- A completed call against the harness: one `model_train` epoch or one
`model_test` evaluation. -/
inductive Op where
  | train (train_loader : List Batch)
  | test (test_loader : List Batch) (dataset_size : Nat) (batch_size : ℚ)

/-- Run one call; `none` when the call raises. -/
def runOp (m : Model_Composite) : Op → Option Model_Composite
  | Op.train l => model_train m l
  | Op.test l ds bs => (model_test m l ds bs).map Prod.fst

/-- Run a sequence of calls, each of which must complete. -/
def runOps : Model_Composite → List Op → Option Model_Composite
  | m, [] => some m
  | m, op :: ops =>
    match runOp m op with
    | none => none
    | some m1 => runOps m1 ops

/-- Total loss accumulated by the training loop over a loader. -/
def totalLoss (l : List Batch) : ℚ := (l.map Batch.loss).sum

/-- Total try/except test loss accumulated by the eval loop. -/
def totalTestLoss (l : List Batch) : ℚ := (l.map Batch.testLoss).sum

/-- Total correct count over a loader. -/
def totalCorrect (l : List Batch) : Nat := (l.map Batch.correct).sum

/-- Total number of samples over a loader. -/
def totalSize (l : List Batch) : Nat := (l.map Batch.size).sum

lemma trainLoop_some (l : List Batch) :
    ∀ (L : ℚ) (C P : Nat) (out : ℚ × Nat × Nat),
    trainLoop l L C P = some out →
    out = (L + totalLoss l, C + totalCorrect l, P + totalSize l) := by
  induction l with
  | nil =>
    intro L C P out h
    simp [trainLoop] at h
    simp [totalLoss, totalCorrect, totalSize, ← h]
  | cons b rest ih =>
    intro L C P out h
    simp only [trainLoop] at h
    split at h
    · simp at h
    · have h2 := ih _ _ _ _ h
      subst h2
      simp [totalLoss, totalCorrect, totalSize, add_assoc]

lemma model_train_some {m : Model_Composite} {l : List Batch} {m1 : Model_Composite}
    (h : model_train m l = some m1) :
    totalSize l ≠ 0 ∧
    m1 = { m with
      train_accuracy := m.train_accuracy ++ [100 * (totalCorrect l : ℚ) / (totalSize l : ℚ)],
      train_losses := m.train_losses ++ [totalLoss l] } := by
  unfold model_train at h
  cases htl : trainLoop l 0 0 0 with
  | none => rw [htl] at h; simp at h
  | some out =>
    rw [htl] at h
    have hout := trainLoop_some l 0 0 0 out htl
    subst hout
    simp only [zero_add] at h
    split at h
    · simp at h
    · rename_i hP
      simp only [Option.some.injEq] at h
      exact ⟨hP, h.symm⟩

lemma testLoop_eq (l : List Batch) :
    ∀ (L : ℚ) (C P : Nat),
    testLoop l L C P = (L + totalTestLoss l, C + totalCorrect l, P + totalSize l) := by
  induction l with
  | nil =>
    intro L C P
    simp [testLoop, totalTestLoss, totalCorrect, totalSize]
  | cons b rest ih =>
    intro L C P
    simp [testLoop, ih, totalTestLoss, totalCorrect, totalSize, add_assoc]

lemma model_test_some {m : Model_Composite} {l : List Batch} {ds : Nat} {bs : ℚ}
    {r : Model_Composite × TestReport} (h : model_test m l ds bs = some r) :
    bs ≠ 0 ∧ ds ≠ 0 ∧
    ∃ ta, m.train_accuracy.getLast? = some ta ∧
    r = ({ m with
            test_losses := m.test_losses ++ [totalTestLoss l],
            test_accuracy := m.test_accuracy ++ [100 * (totalCorrect l : ℚ) / (ds : ℚ)] },
         ⟨totalTestLoss l / ((ds : ℚ) / bs), totalCorrect l, ds,
          100 * (totalCorrect l : ℚ) / (ds : ℚ),
          |100 * (totalCorrect l : ℚ) / (ds : ℚ) - ta|⟩) := by
  unfold model_test at h
  rw [testLoop_eq] at h
  simp only [zero_add] at h
  split at h
  · simp at h
  · split at h
    · simp at h
    · rename_i hbs hdq
      split at h
      · simp at h
      · rename_i hds
        cases hta : m.train_accuracy.getLast? with
        | none => rw [hta] at h; simp at h
        | some ta =>
          rw [hta] at h
          simp only [Option.some.injEq] at h
          exact ⟨hbs, hds, ta, rfl, h.symm⟩

/-- The history-length invariant of §3 of the design. -/
def histInv (m : Model_Composite) : Prop :=
  m.train_losses.length = m.train_accuracy.length ∧
  m.test_losses.length = m.test_accuracy.length

lemma runOp_inv {m m1 : Model_Composite} {op : Op} (hm : histInv m)
    (h : runOp m op = some m1) : histInv m1 := by
  cases op with
  | train l =>
    simp only [runOp] at h
    obtain ⟨-, rfl⟩ := model_train_some h
    simp [histInv, hm.1, hm.2]
  | test l ds bs =>
    simp only [runOp] at h
    obtain ⟨r, hr, rfl⟩ := Option.map_eq_some.mp h
    obtain ⟨-, -, ta, -, rfl⟩ := model_test_some hr
    simp [histInv, hm.1, hm.2]

lemma runOps_inv : ∀ (ops : List Op) (m m1 : Model_Composite),
    histInv m → runOps m ops = some m1 → histInv m1 := by
  intro ops
  induction ops with
  | nil =>
    intro m m1 hm h
    simp only [runOps, Option.some.injEq] at h
    exact h ▸ hm
  | cons op rest ih =>
    intro m m1 hm h
    simp only [runOps] at h
    cases hop : runOp m op with
    | none => rw [hop] at h; simp at h
    | some m2 => rw [hop] at h; exact ih m2 m1 (runOp_inv hm hop) h

/-- C1: after any sequence of completed `model_train`/`model_test` calls on a
fresh harness, `len(train_losses) = len(train_accuracy)` and
`len(test_losses) = len(test_accuracy)`; moreover every completed
`model_train` call grows both train sequences by exactly 1, and every
completed `model_test` call grows both test sequences by exactly 1. -/
theorem c1_history_lengths :
    (∀ (ops : List Op) (m1 : Model_Composite),
        runOps Model_Composite.init ops = some m1 →
        m1.train_losses.length = m1.train_accuracy.length ∧
        m1.test_losses.length = m1.test_accuracy.length) ∧
    (∀ (m : Model_Composite) (l : List Batch) (m1 : Model_Composite),
        model_train m l = some m1 →
        m1.train_accuracy.length = m.train_accuracy.length + 1 ∧
        m1.train_losses.length = m.train_losses.length + 1) ∧
    (∀ (m : Model_Composite) (l : List Batch) (ds : Nat) (bs : ℚ)
        (r : Model_Composite × TestReport),
        model_test m l ds bs = some r →
        r.1.test_accuracy.length = m.test_accuracy.length + 1 ∧
        r.1.test_losses.length = m.test_losses.length + 1) := by
  refine ⟨?_, ?_, ?_⟩
  · intro ops m1 h
    exact runOps_inv ops Model_Composite.init m1 ⟨rfl, rfl⟩ h
  · intro m l m1 h
    obtain ⟨-, rfl⟩ := model_train_some h
    simp
  · intro m l ds bs r h
    obtain ⟨-, -, ta, -, rfl⟩ := model_test_some h
    simp

/-- A concrete batch: 4 samples, all predicted correctly, plain loss 1,
sum-reduced loss 1. -/
def bW : Batch := ⟨[0, 1, 2, 3], [1, 1, 1, 1], [1, 1, 1, 1], some 1, 1⟩

/-- One training epoch followed by one evaluation, both on `bW`. -/
def opsW : List Op := [Op.train [bW], Op.test [bW] 4 2]

/-- The harness state after running `opsW` from a fresh instance. -/
def mW : Model_Composite := ⟨[100], [100], [1], [1], "bn", 2⟩

lemma runOps_opsW : runOps Model_Composite.init opsW = some mW := by
  norm_num [runOps, runOp, model_train, model_test, trainLoop, testLoop, opsW, bW, mW,
    Batch.correct, Batch.size, Batch.testLoss, Model_Composite.init]

theorem c1_history_lengths_witness :
    runOps Model_Composite.init opsW = some mW ∧
    mW.train_losses.length = mW.train_accuracy.length ∧
    mW.test_losses.length = mW.test_accuracy.length :=
  ⟨runOps_opsW, c1_history_lengths.1 opsW mW runOps_opsW⟩

lemma Batch.correct_le_size {b : Batch} (hb : b.wf) : b.correct ≤ b.size := by
  unfold Batch.correct Batch.size
  calc (b.pred.zip b.target).countP (fun pr => pr.1 == pr.2)
      ≤ (b.pred.zip b.target).length := List.countP_le_length _
    _ = min b.pred.length b.target.length := List.length_zip _ _
    _ ≤ b.pred.length := min_le_left _ _
    _ = b.data.length := hb.1

lemma totalCorrect_le_totalSize {l : List Batch} (h : ∀ b ∈ l, b.wf) :
    totalCorrect l ≤ totalSize l := by
  induction l with
  | nil => simp [totalCorrect, totalSize]
  | cons b rest ih =>
    simp only [totalCorrect, totalSize, List.map_cons, List.sum_cons]
    exact Nat.add_le_add (Batch.correct_le_size (h b (by simp)))
      (ih (fun x hx => h x (by simp [hx])))

lemma accuracy_bounds {C S : Nat} (hCS : C ≤ S) (hS : S ≠ 0) :
    0 ≤ 100 * (C : ℚ) / (S : ℚ) ∧ 100 * (C : ℚ) / (S : ℚ) ≤ 100 := by
  have hS0 : (0 : ℚ) < (S : ℚ) := by exact_mod_cast Nat.pos_of_ne_zero hS
  constructor
  · positivity
  · rw [div_le_iff₀ hS0]
    have hC : (C : ℚ) ≤ (S : ℚ) := by exact_mod_cast hCS
    nlinarith

/-- C2: every accuracy value appended by `model_train`
(`100*correct/processed`) and by `model_test` (`100*correct/dataset_size`)
lies in `[0, 100]`, for well-formed batches (`model_train` completing means
the loader yielded at least one non-empty batch) and a loader covering the
dataset at most once (`totalSize l ≤ ds`). -/
theorem c2_accuracy_in_range :
    (∀ (m : Model_Composite) (l : List Batch) (m1 : Model_Composite),
        (∀ b ∈ l, b.wf) → model_train m l = some m1 →
        ∃ a, m1.train_accuracy = m.train_accuracy ++ [a] ∧ 0 ≤ a ∧ a ≤ 100) ∧
    (∀ (m : Model_Composite) (l : List Batch) (ds : Nat) (bs : ℚ)
        (r : Model_Composite × TestReport),
        (∀ b ∈ l, b.wf) → totalSize l ≤ ds → model_test m l ds bs = some r →
        ∃ a, r.1.test_accuracy = m.test_accuracy ++ [a] ∧ 0 ≤ a ∧ a ≤ 100) := by
  constructor
  · intro m l m1 hwf h
    obtain ⟨hP, rfl⟩ := model_train_some h
    exact ⟨_, rfl, accuracy_bounds (totalCorrect_le_totalSize hwf) hP⟩
  · intro m l ds bs r hwf hcov h
    obtain ⟨-, hds, ta, -, rfl⟩ := model_test_some h
    exact ⟨_, rfl,
      accuracy_bounds (le_trans (totalCorrect_le_totalSize hwf) hcov) hds⟩

/-- The state after `model_train Model_Composite.init [bW]`. -/
def mTrainW : Model_Composite := ⟨[100], [], [1], [], "bn", 2⟩

/-- The result of `model_test mTrainW [bW] 4 2`. -/
def rW : Model_Composite × TestReport :=
  (⟨[100], [100], [1], [1], "bn", 2⟩, ⟨1/2, 4, 4, 100, 0⟩)

lemma model_train_bW : model_train Model_Composite.init [bW] = some mTrainW := by
  norm_num [model_train, trainLoop, bW, mTrainW, Batch.correct, Batch.size,
    Model_Composite.init]

lemma model_test_bW : model_test mTrainW [bW] 4 2 = some rW := by
  norm_num [model_test, testLoop, bW, mTrainW, rW, Batch.correct, Batch.size,
    Batch.testLoss]

theorem c2_accuracy_in_range_witness :
    (∃ a, mTrainW.train_accuracy = Model_Composite.init.train_accuracy ++ [a] ∧
      0 ≤ a ∧ a ≤ 100) ∧
    (∃ a, rW.1.test_accuracy = mTrainW.test_accuracy ++ [a] ∧ 0 ≤ a ∧ a ≤ 100) :=
  ⟨c2_accuracy_in_range.1 Model_Composite.init [bW] mTrainW (by decide)
      model_train_bW,
   c2_accuracy_in_range.2 mTrainW [bW] 4 2 rW (by decide) (by decide)
      model_test_bW⟩

/-- C3: calling `model_test` when no `model_train` call has completed
(`train_accuracy` is empty) never completes: the accuracy-diff report
indexes `self.train_accuracy[-1]`, which raises IndexError. -/
theorem c3_test_before_train_fails (m : Model_Composite) (l : List Batch)
    (ds : Nat) (bs : ℚ) (h : m.train_accuracy = []) :
    model_test m l ds bs = none := by
  unfold model_test
  rw [testLoop_eq l 0 0 0]
  simp only [zero_add]
  split
  · rfl
  · split
    · rfl
    · split
      · rfl
      · rw [h]
        rfl

theorem c3_test_before_train_fails_witness :
    model_test Model_Composite.init [bW] 4 2 = none :=
  c3_test_before_train_fails Model_Composite.init [bW] 4 2 rfl

/-- One test batch of the C4 scenario: 20 samples, all predicted correctly,
sum-reduced loss 1. -/
def bTest : Batch :=
  ⟨List.replicate 20 0, List.replicate 20 0, List.replicate 20 0, some 1, 1⟩

/-- The C4 scenario loader: 5 batches of 20 samples, each batch loss 1. -/
def testLoaderC4 : List Batch := List.replicate 5 bTest

/-- A harness that has completed one training epoch with accuracy 50. -/
def mPre50 : Model_Composite := ⟨[50], [], [], [], "bn", 2⟩

/-- The result of `model_test mPre50 testLoaderC4 100 20`. -/
def rC4 : Model_Composite × TestReport :=
  (⟨[50], [100], [], [5], "bn", 2⟩, ⟨1, 100, 100, 100, 50⟩)

lemma model_test_C4 : model_test mPre50 testLoaderC4 100 20 = some rC4 := by
  norm_num [model_test, testLoop, testLoaderC4, bTest, mPre50, rC4,
    Batch.correct, Batch.size, Batch.testLoss, List.replicate]

/-- C4 (counterexample): in the claimed scenario (dataset size 100, batch
size 20, 5 batches of summed loss 1.0) the raw accumulated loss is 5 and
the normalized loss is 1, but the value appended to `test_losses` is the
RAW sum 5, not the normalized value 1: the normalized value is only what
the printed report shows, not what the history reflects. -/
theorem c4_history_counterexample :
    model_test mPre50 testLoaderC4 100 20 = some rC4 ∧
    totalTestLoss testLoaderC4 = 5 ∧
    rC4.2.avg_loss = 1 ∧
    rC4.1.test_losses = [5] ∧
    rC4.1.test_losses ≠ [rC4.2.avg_loss] := by
  refine ⟨model_test_C4, ?_, ?_, ?_, ?_⟩
  · norm_num [totalTestLoss, testLoaderC4, bTest, Batch.testLoss, List.replicate]
  · rfl
  · rfl
  · norm_num [rC4]

/-- C4 (amended): `model_test` accumulates a raw per-batch loss sum and
appends that RAW sum to `test_losses`; the value normalized by
`dataset_size / batch_size` is the one shown in the printed report
(`avg_loss`), not the one stored in the history.  In the scenario (dataset
100, batch size 20, 5 batches of loss 1.0) the raw sum 5 is appended and
the printed average is 5 / (100/20) = 1. -/
theorem c4_raw_appended_normalized_printed :
    ∀ (m : Model_Composite) (l : List Batch) (ds : Nat) (bs : ℚ)
      (r : Model_Composite × TestReport),
      model_test m l ds bs = some r →
      r.1.test_losses = m.test_losses ++ [totalTestLoss l] ∧
      r.2.avg_loss = totalTestLoss l / ((ds : ℚ) / bs) := by
  intro m l ds bs r h
  obtain ⟨-, -, ta, -, rfl⟩ := model_test_some h
  exact ⟨rfl, rfl⟩

theorem c4_raw_appended_normalized_printed_witness :
    rC4.1.test_losses = mPre50.test_losses ++ [totalTestLoss testLoaderC4] ∧
    rC4.2.avg_loss = totalTestLoss testLoaderC4 / (((100 : Nat) : ℚ) / (20 : ℚ)) :=
  c4_raw_appended_normalized_printed mPre50 testLoaderC4 100 20 rC4 model_test_C4

/-- C5: a completed `model_train` call appends exactly one aggregate
accuracy value `100*correct/processed` and one aggregate loss value (the
sum of the per-batch losses) to the history. -/
theorem c5_train_appends :
    ∀ (m : Model_Composite) (l : List Batch) (m1 : Model_Composite),
      model_train m l = some m1 →
      m1.train_accuracy =
        m.train_accuracy ++ [100 * (totalCorrect l : ℚ) / (totalSize l : ℚ)] ∧
      m1.train_losses = m.train_losses ++ [totalLoss l] ∧
      m1.test_accuracy = m.test_accuracy ∧ m1.test_losses = m.test_losses := by
  intro m l m1 h
  obtain ⟨-, rfl⟩ := model_train_some h
  exact ⟨rfl, rfl, rfl, rfl⟩

/-- First batch of the C5 scenario: 4 samples, all predicted correctly. -/
def b5a : Batch := ⟨[0, 1, 2, 3], [0, 1, 0, 1], [0, 1, 0, 1], none, 2⟩

/-- Second batch of the C5 scenario: 4 samples, all predicted correctly. -/
def b5b : Batch := ⟨[4, 5, 6, 7], [1, 1, 1, 1], [1, 1, 1, 1], none, 3⟩

/-- The C5 scenario loader: 2 batches of 4 samples, everything correct. -/
def l5 : List Batch := [b5a, b5b]

/-- The state after `model_train Model_Composite.init l5`. -/
def m5W : Model_Composite := ⟨[100], [], [5], [], "bn", 2⟩

lemma model_train_l5 : model_train Model_Composite.init l5 = some m5W := by
  norm_num [model_train, trainLoop, l5, b5a, b5b, m5W, Batch.correct, Batch.size,
    Model_Composite.init]

theorem c5_train_appends_witness :
    (model_train Model_Composite.init l5 = some m5W) ∧
    m5W.train_accuracy = Model_Composite.init.train_accuracy ++
      [100 * (totalCorrect l5 : ℚ) / (totalSize l5 : ℚ)] ∧
    m5W.train_losses = Model_Composite.init.train_losses ++ [totalLoss l5] ∧
    m5W.train_accuracy = [100] :=
  ⟨model_train_l5,
   (c5_train_appends Model_Composite.init l5 m5W model_train_l5).1,
   (c5_train_appends Model_Composite.init l5 m5W model_train_l5).2.1,
   rfl⟩

/-- C6: `get_norm` with tag `'bn'` returns `BatchNorm2d n_channels`
(per-channel normalization over `n_channels` channels); with tag `'gn'` it
returns `GroupNorm n_groups n_channels` (channels partitioned into the
configured number of groups); with tag `'ln'` it returns
`GroupNorm 1 n_channels`, the single-group variant. -/
theorem c6_norm_factory (m : Model_Composite) (n_channels : Nat) :
    (m.norm_type = "bn" →
      get_norm m n_channels = some (NormLayer.BatchNorm2d n_channels)) ∧
    (m.norm_type = "gn" →
      get_norm m n_channels = some (NormLayer.GroupNorm m.n_groups n_channels)) ∧
    (m.norm_type = "ln" →
      get_norm m n_channels = some (NormLayer.GroupNorm 1 n_channels)) := by
  refine ⟨?_, ?_, ?_⟩ <;> intro h <;> simp [get_norm, h]

/-- A harness configured for group normalization. -/
def mGn : Model_Composite := ⟨[], [], [], [], "gn", 2⟩

/-- A harness configured for layer normalization. -/
def mLn : Model_Composite := ⟨[], [], [], [], "ln", 2⟩

theorem c6_norm_factory_witness :
    get_norm Model_Composite.init 3 = some (NormLayer.BatchNorm2d 3) ∧
    get_norm mGn 6 = some (NormLayer.GroupNorm 2 6) ∧
    get_norm mLn 4 = some (NormLayer.GroupNorm 1 4) :=
  ⟨(c6_norm_factory Model_Composite.init 3).1 rfl,
   (c6_norm_factory mGn 6).2.1 rfl,
   (c6_norm_factory mLn 4).2.2 rfl⟩

/-- C7: `get_norm` with a configured tag that is none of `'bn'`, `'ln'`,
`'gn'` silently returns `None` for every channel count (it falls off the
`if`/`elif` chain with no `else` and no raise). -/
theorem c7_unknown_tag_silent (m : Model_Composite) (n_channels : Nat)
    (h1 : m.norm_type ≠ "bn") (h2 : m.norm_type ≠ "ln")
    (h3 : m.norm_type ≠ "gn") :
    get_norm m n_channels = none := by
  simp [get_norm, h1, h2, h3]

/-- A harness whose normalization tag is not one of the recognized tags. -/
def mBad : Model_Composite := ⟨[], [], [], [], "xx", 2⟩

theorem c7_unknown_tag_silent_witness : get_norm mBad 3 = none :=
  c7_unknown_tag_silent mBad 3 (by decide) (by decide) (by decide)

/-- C9: for every batch processed by `model_test`, the accumulated per-batch
loss is the sum-reduced value when the `reduction='sum'` call succeeds, and
the plain call's value when the sum-reduced call raises; a completed
`model_test` appends exactly the sum of these per-batch values. -/
theorem c9_loss_fallback :
    (∀ b : Batch, b.lossSum = none → b.testLoss = b.loss) ∧
    (∀ (b : Batch) (v : ℚ), b.lossSum = some v → b.testLoss = v) ∧
    (∀ (m : Model_Composite) (l : List Batch) (ds : Nat) (bs : ℚ)
        (r : Model_Composite × TestReport),
        model_test m l ds bs = some r →
        r.1.test_losses = m.test_losses ++ [(l.map Batch.testLoss).sum]) := by
  refine ⟨?_, ?_, ?_⟩
  · intro b h
    simp [Batch.testLoss, h]
  · intro b v h
    simp [Batch.testLoss, h]
  · intro m l ds bs r h
    obtain ⟨-, -, ta, -, rfl⟩ := model_test_some h
    rfl

/-- A batch whose sum-reduced loss call raises, with plain loss 3. -/
def bFallback : Batch := ⟨[0], [0], [0], none, 3⟩

/-- A batch whose sum-reduced loss call succeeds with value 2. -/
def bSum : Batch := ⟨[1], [0], [0], some 2, 7⟩

/-- The result of `model_test mPre50 [bFallback, bSum] 2 1`. -/
def rC9 : Model_Composite × TestReport :=
  (⟨[50], [100], [], [5], "bn", 2⟩, ⟨5/2, 2, 2, 100, 50⟩)

lemma model_test_C9 : model_test mPre50 [bFallback, bSum] 2 1 = some rC9 := by
  norm_num [model_test, testLoop, bFallback, bSum, mPre50, rC9,
    Batch.correct, Batch.size, Batch.testLoss]

theorem c9_loss_fallback_witness :
    bFallback.testLoss = bFallback.loss ∧
    bSum.testLoss = 2 ∧
    rC9.1.test_losses =
      mPre50.test_losses ++ [([bFallback, bSum].map Batch.testLoss).sum] :=
  ⟨c9_loss_fallback.1 bFallback rfl,
   c9_loss_fallback.2.1 bSum 2 rfl,
   c9_loss_fallback.2.2 mPre50 [bFallback, bSum] 2 1 rC9 model_test_C9⟩

/-- C10: a freshly constructed harness has `norm_type = 'bn'`,
`n_groups = 2` and all four history sequences empty; hence `get_norm` on a
fresh instance returns a batch-normalization layer for every channel
count. -/
theorem c10_fresh_instance :
    Model_Composite.init.norm_type = "bn" ∧
    Model_Composite.init.n_groups = 2 ∧
    Model_Composite.init.train_accuracy = [] ∧
    Model_Composite.init.test_accuracy = [] ∧
    Model_Composite.init.train_losses = [] ∧
    Model_Composite.init.test_losses = [] ∧
    ∀ n_channels, get_norm Model_Composite.init n_channels =
      some (NormLayer.BatchNorm2d n_channels) := by
  refine ⟨rfl, rfl, rfl, rfl, rfl, rfl, fun n_channels => ?_⟩
  simp [get_norm, Model_Composite.init]

lemma compare_length (b : Batch) :
    b.compare.length = min b.pred.length b.target.length := by
  simp [Batch.compare]

lemma mem_incorrect_indx {b : Batch} {i : Nat} (h : i ∈ b.incorrect_indx) :
    i < b.compare.length ∧ b.compare.getD i true = false := by
  unfold Batch.incorrect_indx at h
  rw [List.mem_filter] at h
  exact ⟨List.mem_range.mp h.1, by simpa using h.2⟩

lemma incorrect_indx_spec {b : Batch} {i : Nat} (h : i ∈ b.incorrect_indx) :
    i < b.pred.length ∧ i < b.target.length ∧
    b.pred.getD i 0 ≠ b.target.getD i 0 := by
  obtain ⟨hi, hc⟩ := mem_incorrect_indx h
  have hlen := compare_length b
  have hmin : i < min b.pred.length b.target.length := hlen ▸ hi
  have hip : i < b.pred.length := lt_of_lt_of_le hmin (min_le_left _ _)
  have hit : i < b.target.length := lt_of_lt_of_le hmin (min_le_right _ _)
  refine ⟨hip, hit, ?_⟩
  rw [List.getD_eq_getElem _ _ hi] at hc
  simp only [Batch.compare, List.getElem_map, List.getElem_zip] at hc
  rw [List.getD_eq_getElem _ _ hip, List.getD_eq_getElem _ _ hit]
  simpa using hc

lemma incorrect_indx_length_le (b : Batch) :
    b.incorrect_indx.length ≤ b.compare.length := by
  unfold Batch.incorrect_indx
  calc (List.filter (fun i => b.compare.getD i true == false)
          (List.range b.compare.length)).length
      ≤ (List.range b.compare.length).length := List.length_filter_le _ _
    _ = b.compare.length := List.length_range _

/-- C8: `get_incorrect_pred` inspects exactly the first batch of the loader
and returns the `(inputs, targets, predictions)` triples at the first
misclassified indices of that batch: the result is the image of
`incorrect_indx[:top_n]`, its length is `min top_n` (number of
misclassifications in the batch) — hence at most `top_n`, at most the
batch size, and smaller when fewer misclassifications exist — and every
index in `incorrect_indx` is an in-range position where prediction and
target differ.  The result does not depend on the remaining batches. -/
theorem c8_incorrect_pred (b : Batch) (rest : List Batch) (top_n : Nat)
    (d t p : List Nat) (hwf : b.wf)
    (h : get_incorrect_pred (b :: rest) top_n = some (d, t, p)) :
    d.length ≤ top_n ∧ d.length ≤ b.size ∧
    t.length = d.length ∧ p.length = d.length ∧
    d.length = min top_n b.incorrect_indx.length ∧
    d = (b.incorrect_indx.take top_n).map (fun i => b.data.getD i 0) ∧
    t = (b.incorrect_indx.take top_n).map (fun i => b.target.getD i 0) ∧
    p = (b.incorrect_indx.take top_n).map (fun i => b.pred.getD i 0) ∧
    (∀ i ∈ b.incorrect_indx, i < b.size ∧ b.pred.getD i 0 ≠ b.target.getD i 0) ∧
    (∀ rest2, get_incorrect_pred (b :: rest2) top_n = some (d, t, p)) := by
  have hparts : (b.incorrect_indx.take top_n).map (fun i => b.data.getD i 0) = d ∧
      (b.incorrect_indx.take top_n).map (fun i => b.target.getD i 0) = t ∧
      (b.incorrect_indx.take top_n).map (fun i => b.pred.getD i 0) = p := by
    simpa only [get_incorrect_pred, Option.some.injEq, Prod.mk.injEq] using h
  obtain ⟨hd, ht, hp⟩ := hparts
  have hdlen : d.length = min top_n b.incorrect_indx.length := by
    rw [← hd, List.length_map, List.length_take]
  have hle_size : d.length ≤ b.size := by
    rw [hdlen]
    calc min top_n b.incorrect_indx.length ≤ b.incorrect_indx.length :=
          min_le_right _ _
      _ ≤ b.compare.length := incorrect_indx_length_le b
      _ = min b.pred.length b.target.length := compare_length b
      _ ≤ b.pred.length := min_le_left _ _
      _ = b.size := hwf.1
  refine ⟨hdlen ▸ min_le_left _ _, hle_size, ?_, ?_, hdlen, hd.symm, ht.symm,
    hp.symm, ?_, ?_⟩
  · rw [← hd, ← ht, List.length_map, List.length_map]
  · rw [← hd, ← hp, List.length_map, List.length_map]
  · intro i hi
    obtain ⟨hip, -, hne⟩ := incorrect_indx_spec hi
    refine ⟨?_, hne⟩
    unfold Batch.size
    rw [← hwf.1]
    exact hip
  · intro rest2
    exact h

/-- A batch of 5 samples with misclassifications at indices 1 and 3. -/
def b8 : Batch := ⟨[10, 11, 12, 13, 14], [0, 1, 0, 1, 0], [0, 0, 0, 0, 0], none, 1⟩

theorem c8_incorrect_pred_witness :
    (([11, 13] : List Nat).length ≤ 10 ∧
     ([11, 13] : List Nat).length ≤ b8.size) ∧
    (∀ i ∈ b8.incorrect_indx,
      i < b8.size ∧ b8.pred.getD i 0 ≠ b8.target.getD i 0) := by
  obtain ⟨h1, h2, -, -, -, -, -, -, h9, -⟩ :=
    c8_incorrect_pred b8 [] 10 [11, 13] [1, 1] [0, 0] (by decide) (by decide)
  exact ⟨⟨h1, h2⟩, h9⟩
